import Mathlib

/-
  Verification of the Azure blob-storage virtual filesystem adapter
  (sources: src/azure_filesystem.cpp, src/azure_storage_account_client.cpp,
  headers in src/include).

  The development shallowly embeds the data model and the operations of the
  adapter: the buffered read engine, the URL parser, the glob matcher, the
  listing/glob driver, the credential resolver and the per-session context
  cache.  Machine integers (idx_t = uint64_t) are modelled as Nat with
  explicit two's-complement wraparound where the source can underflow.
-/

namespace AzureSpec

/-! ## Read engine state
  Mirrors AzureStorageFileHandle (include/azure_filesystem.hpp lines 34-62):
  length, buffer_available, buffer_idx, file_offset, buffer_start, buffer_end,
  read_buffer, plus the handle's read_options.buffer_size and the
  FILE_FLAGS_DIRECT_IO bit of its flags.  Byte values are Nat. -/

def U64 : Nat := 2 ^ 64

/-- Unsigned 64-bit subtraction: models `a - b` on idx_t operands that are
both below 2^64, wrapping around on underflow exactly as the C++ does. -/
def usub (a b : Nat) : Nat := if b ≤ a then a - b else U64 - (b - a)

/-- One ranged network fetch issued by ReadRange (azure_filesystem.cpp 308-327).
`toBuffer` is true when the destination is the handle's read-ahead buffer
(a refill) and false when it is the caller's buffer (a direct fetch). -/
structure Fetch where
  offset : Nat
  len : Nat
  toBuffer : Bool
  deriving Repr, DecidableEq

structure FileHandleState where
  length : Nat
  buffer_available : Nat
  buffer_idx : Nat
  file_offset : Nat
  buffer_start : Nat
  buffer_end : Nat
  read_buffer : List Nat
  buffer_size : Nat
  directIO : Bool
  deriving Repr, DecidableEq

/-- The bytes a ranged fetch returns: the remote object is a total map from
offsets to byte values. -/
def fetchBytes (file : Nat → Nat) (ofs n : Nat) : List Nat :=
  (List.range n).map (fun i => file (ofs + i))

/-- The copy/refill loop of AzureStorageFileSystem::Read (azure_filesystem.cpp
lines 260-292), transcribed iteration by iteration.  Returns the final handle
state, the bytes delivered to the caller's buffer, and the fetches issued.
`location` and `bufOfs` are the C++ `location` and `buffer_offset`. -/
def readLoop (file : Nat → Nat) (h : FileHandleState) (location bufOfs toRead : Nat) :
    FileHandleState × List Nat × List Fetch :=
  if toRead = 0 then (h, [], [])
  else
    -- buffer_read_len = MinValue(buffer_available, to_read); memcpy from read_buffer
    let n := min h.buffer_available toRead
    let out1 := (h.read_buffer.drop h.buffer_idx).take n
    let h1 : FileHandleState :=
      { h with buffer_idx := h.buffer_idx + n,
               buffer_available := h.buffer_available - n,
               file_offset := h.file_offset + n }
    if toRead - n = 0 then (h1, out1, [])
    else
      -- to_read > 0 and buffer_available == 0 here
      let newAvail := min h.buffer_size (usub h.length (h.file_offset + n))
      if toRead - n > newAvail then
        -- bypass the buffer: one direct ranged fetch of the remaining request
        ({ h1 with buffer_available := 0, buffer_idx := 0,
                   file_offset := h1.file_offset + (toRead - n) },
         out1 ++ fetchBytes file (location + bufOfs + n) (toRead - n),
         [⟨location + bufOfs + n, toRead - n, false⟩])
      else
        -- refill the whole buffer and continue the loop
        let h2 : FileHandleState :=
          { h1 with read_buffer := fetchBytes file h1.file_offset newAvail,
                    buffer_available := newAvail, buffer_idx := 0,
                    buffer_start := h1.file_offset,
                    buffer_end := h1.file_offset + newAvail }
        let rest := readLoop file h2 location (bufOfs + n) (toRead - n)
        (rest.1, out1 ++ rest.2.1, ⟨h1.file_offset, newAvail, true⟩ :: rest.2.2)
termination_by 2 * toRead + (if h.buffer_available = 0 then 1 else 0)
decreasing_by
  unfold_let n newAvail at *
  split <;> split <;> omega

/-- The window check at the head of the buffered path (azure_filesystem.cpp
lines 250-259): recompute the cursor from the window on a hit, invalidate the
window otherwise. -/
def adjustWindow (h : FileHandleState) (location : Nat) : FileHandleState :=
  if h.buffer_start ≤ location ∧ location < h.buffer_end then
    { h with file_offset := location,
             buffer_idx := location - h.buffer_start,
             buffer_available := (h.buffer_end - h.buffer_start) - (location - h.buffer_start) }
  else
    { h with buffer_available := 0, buffer_idx := 0, file_offset := location }

/-- AzureStorageFileSystem::Read(handle, buffer, nr_bytes, location)
(azure_filesystem.cpp lines 235-293). -/
def ReadAt (file : Nat → Nat) (h : FileHandleState) (location toRead : Nat) :
    FileHandleState × List Nat × List Fetch :=
  if h.directIO ∧ 0 < toRead then
    ({ h with buffer_available := 0, buffer_idx := 0, file_offset := location + toRead },
     fetchBytes file location toRead, [⟨location, toRead, false⟩])
  else
    readLoop file (adjustWindow h location) location 0 toRead

/-- AzureStorageFileSystem::Read(handle, buffer, nr_bytes) (azure_filesystem.cpp
lines 168-174): clamp with idx_t arithmetic, then delegate to the offset form
at the handle's current offset.  The first component is the returned count. -/
def ReadClamped (file : Nat → Nat) (h : FileHandleState) (nrBytes : Nat) :
    Nat × (FileHandleState × List Nat × List Fetch) :=
  let maxRead := usub h.length h.file_offset
  let n := min maxRead nrBytes
  (n, ReadAt file h h.file_offset n)

/-- AzureStorageFileSystem::Seek (azure_filesystem.cpp lines 159-162). -/
def Seek (h : FileHandleState) (location : Nat) : FileHandleState :=
  { h with file_offset := location }

/-! ## Helper lemmas about the read loop -/

theorem readLoop_zero (file : Nat → Nat) (h : FileHandleState) (location bufOfs : Nat) :
    readLoop file h location bufOfs 0 = (h, [], []) := by
  rw [readLoop]
  simp

/-- When the request fits inside the currently available bytes, the loop is a
pure copy: no fetch. -/
theorem readLoop_buffered (file : Nat → Nat) (h : FileHandleState) (location bufOfs toRead : Nat)
    (h0 : 0 < toRead) (h1 : toRead ≤ h.buffer_available) :
    readLoop file h location bufOfs toRead =
      ({ h with buffer_idx := h.buffer_idx + toRead,
                buffer_available := h.buffer_available - toRead,
                file_offset := h.file_offset + toRead },
       (h.read_buffer.drop h.buffer_idx).take toRead, []) := by
  rw [readLoop]
  have hn : min h.buffer_available toRead = toRead := Nat.min_eq_right h1
  simp [hn, h0.ne']

/-- When the available bytes run out before the request is served and the
remaining request exceeds what a full refill would provide, the loop issues
exactly one direct ranged fetch sized to the remaining request and stops with
an empty buffer window. -/
theorem readLoop_exhaust_bypass (file : Nat → Nat) (h : FileHandleState)
    (location bufOfs toRead : Nat)
    (hlt : h.buffer_available < toRead)
    (hgt : min h.buffer_size (usub h.length (h.file_offset + h.buffer_available)) <
      toRead - h.buffer_available) :
    readLoop file h location bufOfs toRead =
      ({ h with buffer_available := 0, buffer_idx := 0,
                file_offset := h.file_offset + toRead },
       (h.read_buffer.drop h.buffer_idx).take h.buffer_available ++
         fetchBytes file (location + bufOfs + h.buffer_available) (toRead - h.buffer_available),
       [⟨location + bufOfs + h.buffer_available, toRead - h.buffer_available, false⟩]) := by
  rw [readLoop]
  have hn : min h.buffer_available toRead = h.buffer_available := Nat.min_eq_left hlt.le
  rw [if_neg (by omega)]
  simp only [hn]
  rw [if_neg (by omega), if_pos (by omega)]
  simp only [Prod.mk.injEq, FileHandleState.mk.injEq, List.cons.injEq, Fetch.mk.injEq,
    List.drop_zero, true_and, and_true, eq_self_iff_true]
  all_goals omega

/-- When the available bytes run out before the request is served and the
remaining request fits a refill, the loop issues exactly one refill fetch
sized min(bufferSize, bytes left in file) into the read buffer, establishes
the new buffer window there, and finishes copying. -/
theorem readLoop_exhaust_refill (file : Nat → Nat) (h : FileHandleState)
    (location bufOfs toRead : Nat)
    (hlt : h.buffer_available < toRead)
    (hle : toRead - h.buffer_available ≤
      min h.buffer_size (usub h.length (h.file_offset + h.buffer_available))) :
    readLoop file h location bufOfs toRead =
      ({ h with read_buffer := fetchBytes file (h.file_offset + h.buffer_available)
                  (min h.buffer_size (usub h.length (h.file_offset + h.buffer_available))),
                buffer_available :=
                  min h.buffer_size (usub h.length (h.file_offset + h.buffer_available)) -
                    (toRead - h.buffer_available),
                buffer_idx := toRead - h.buffer_available,
                buffer_start := h.file_offset + h.buffer_available,
                buffer_end := h.file_offset + h.buffer_available +
                  min h.buffer_size (usub h.length (h.file_offset + h.buffer_available)),
                file_offset := h.file_offset + toRead },
       (h.read_buffer.drop h.buffer_idx).take h.buffer_available ++
         (fetchBytes file (h.file_offset + h.buffer_available)
           (min h.buffer_size (usub h.length (h.file_offset + h.buffer_available)))).take
             (toRead - h.buffer_available),
       [⟨h.file_offset + h.buffer_available,
         min h.buffer_size (usub h.length (h.file_offset + h.buffer_available)), true⟩]) := by
  rw [readLoop]
  have hn : min h.buffer_available toRead = h.buffer_available := Nat.min_eq_left hlt.le
  rw [if_neg (by omega)]
  simp only [hn]
  rw [if_neg (by omega), if_neg (by omega)]
  rw [readLoop_buffered file _ location (bufOfs + h.buffer_available)
    (toRead - h.buffer_available) (by omega) (by simpa using hle)]
  simp only [Prod.mk.injEq, FileHandleState.mk.injEq, List.cons.injEq, Fetch.mk.injEq,
    List.drop_zero, true_and, and_true, eq_self_iff_true]
  all_goals omega

/-! ## Claims C1, C2, C3 about the read engine -/

/-- C1 (amended): for every non-DirectIO read, whenever the read-ahead buffer
is exhausted and the bytes still required exceed what a full buffer refill
would provide (min(bufferSize, bytes left in file)), the engine issues exactly
one direct ranged fetch sized to the remaining request, stops, and leaves the
buffer window empty; otherwise it refills the whole buffer with one ranged
fetch sized to min(bufferSize, bytes left in file) and continues copying.
A single read request larger than the configured buffer size that starts
outside the buffered window (so that no part of it is first served from the
buffer) issues exactly one direct ranged fetch and leaves the buffer window
empty.  (The original claim's unconditional "in particular" sentence is
refuted by claim_C1_counterexample: when part of such a request is first
served from the window, the remainder may fit a refill instead.) -/
theorem claim_C1 :
    (∀ (file : Nat → Nat) (h : FileHandleState) (location bufOfs toRead : Nat),
       h.buffer_available < toRead →
       min h.buffer_size (usub h.length (h.file_offset + h.buffer_available)) <
         toRead - h.buffer_available →
       (readLoop file h location bufOfs toRead).2.2 =
         [⟨location + bufOfs + h.buffer_available, toRead - h.buffer_available, false⟩] ∧
       (readLoop file h location bufOfs toRead).1.buffer_available = 0 ∧
       (readLoop file h location bufOfs toRead).1.buffer_idx = 0)
  ∧ (∀ (file : Nat → Nat) (h : FileHandleState) (location bufOfs toRead : Nat),
       h.buffer_idx + h.buffer_available ≤ h.read_buffer.length →
       h.buffer_available < toRead →
       toRead - h.buffer_available ≤
         min h.buffer_size (usub h.length (h.file_offset + h.buffer_available)) →
       (readLoop file h location bufOfs toRead).2.2 =
         [⟨h.file_offset + h.buffer_available,
           min h.buffer_size (usub h.length (h.file_offset + h.buffer_available)), true⟩] ∧
       (readLoop file h location bufOfs toRead).2.1.length = toRead ∧
       (readLoop file h location bufOfs toRead).1.file_offset = h.file_offset + toRead)
  ∧ (∀ (file : Nat → Nat) (h : FileHandleState) (location toRead : Nat),
       h.directIO = false →
       (location < h.buffer_start ∨ h.buffer_end ≤ location) →
       h.buffer_size < toRead →
       ReadAt file h location toRead =
         ({ h with buffer_available := 0, buffer_idx := 0, file_offset := location + toRead },
          fetchBytes file location toRead, [⟨location, toRead, false⟩])) := by
  refine ⟨?_, ?_, ?_⟩
  · intro file h location bufOfs toRead hlt hgt
    rw [readLoop_exhaust_bypass file h location bufOfs toRead hlt hgt]
    exact ⟨rfl, rfl, rfl⟩
  · intro file h location bufOfs toRead hwf hlt hle
    rw [readLoop_exhaust_refill file h location bufOfs toRead hlt hle]
    refine ⟨rfl, ?_, rfl⟩
    simp [fetchBytes]
    omega
  · intro file h location toRead hdio hout hsz
    rw [ReadAt, if_neg (by simp [hdio])]
    rw [show adjustWindow h location =
        { h with buffer_available := 0, buffer_idx := 0, file_offset := location } from by
      rw [adjustWindow, if_neg (by omega)]]
    rw [readLoop_exhaust_bypass]
    · simp
    · simp
      omega
    · simp
      have := Nat.min_le_left h.buffer_size (usub h.length (location + 0))
      omega

/-- C1 counterexample: a single read of 6 bytes against a 4-byte buffer
(request larger than the configured buffer size), starting inside a full
buffer window [0,4) of a 100-byte file, first drains the window and then
refills the buffer (one ranged fetch into the buffer, no direct fetch),
leaving 2 bytes available in the window — refuting "a single read request
larger than the configured buffer size issues exactly one direct ranged fetch
and leaves the buffer window empty". -/
theorem claim_C1_counterexample :
    ((6 : Nat) > (FileHandleState.mk 100 4 0 0 0 4 [1, 2, 3, 4] 4 false).buffer_size) ∧
    (ReadAt (fun _ => 7) ⟨100, 4, 0, 0, 0, 4, [1, 2, 3, 4], 4, false⟩ 0 6).2.2 =
      [⟨4, 4, true⟩] ∧
    (ReadAt (fun _ => 7) ⟨100, 4, 0, 0, 0, 4, [1, 2, 3, 4], 4, false⟩ 0 6).1.buffer_available
      = 2 := by
  refine ⟨by decide, ?_⟩
  rw [ReadAt, if_neg (by simp)]
  rw [show adjustWindow ⟨100, 4, 0, 0, 0, 4, [1, 2, 3, 4], 4, false⟩ 0 =
      ⟨100, 4, 0, 0, 0, 4, [1, 2, 3, 4], 4, false⟩ from by rw [adjustWindow]; simp]
  rw [readLoop_exhaust_refill _ _ _ _ _ (by decide) (by decide)]
  exact ⟨by simp [usub, U64], by decide⟩

theorem claim_C1_witness :
    ReadAt (fun _ => 7) ⟨10, 0, 0, 0, 0, 0, [], 4, false⟩ 0 6 =
      ({ (⟨10, 0, 0, 0, 0, 0, [], 4, false⟩ : FileHandleState) with
          buffer_available := 0, buffer_idx := 0, file_offset := 0 + 6 },
       fetchBytes (fun _ => 7) 0 6, [⟨0, 6, false⟩]) :=
  claim_C1.2.2 (fun _ => 7) ⟨10, 0, 0, 0, 0, 0, [], 4, false⟩ 0 6 rfl
    (Or.inr (by decide)) (by decide)

/-- C2: for every non-DirectIO read at an offset inside the current buffer
window, the cursor and available-bytes count are recomputed from the window
with no network I/O; a read whose requested bytes all lie inside the window
issues zero ranged fetches and changes no handle state other than
file_offset, buffer_idx and buffer_available; an offset outside the window
invalidates the window (available = 0) and jumps the logical offset to it. -/
theorem claim_C2 :
    (∀ (h : FileHandleState) (location : Nat),
       h.buffer_start ≤ location → location < h.buffer_end →
       adjustWindow h location =
         { h with file_offset := location,
                  buffer_idx := location - h.buffer_start,
                  buffer_available := h.buffer_end - location })
  ∧ (∀ (file : Nat → Nat) (h : FileHandleState) (location toRead : Nat),
       h.directIO = false →
       h.buffer_start ≤ location → location < h.buffer_end →
       location + toRead ≤ h.buffer_end →
       (ReadAt file h location toRead).2.2 = [] ∧
       (ReadAt file h location toRead).1 =
         { h with file_offset := location + toRead,
                  buffer_idx := location - h.buffer_start + toRead,
                  buffer_available := h.buffer_end - location - toRead })
  ∧ (∀ (h : FileHandleState) (location : Nat),
       ¬ (h.buffer_start ≤ location ∧ location < h.buffer_end) →
       adjustWindow h location =
         { h with buffer_available := 0, buffer_idx := 0, file_offset := location }) := by
  have hadj : ∀ (h : FileHandleState) (location : Nat),
      h.buffer_start ≤ location → location < h.buffer_end →
      adjustWindow h location =
        { h with file_offset := location,
                 buffer_idx := location - h.buffer_start,
                 buffer_available := h.buffer_end - location } := by
    intro h location h1 h2
    rw [adjustWindow, if_pos ⟨h1, h2⟩]
    simp only [FileHandleState.mk.injEq, true_and, and_true, eq_self_iff_true]
    all_goals omega
  refine ⟨hadj, ?_, ?_⟩
  · intro file h location toRead hdio h1 h2 h3
    rw [ReadAt, if_neg (by simp [hdio]), hadj h location h1 h2]
    rcases Nat.eq_zero_or_pos toRead with h0 | h0
    · subst h0
      rw [readLoop_zero]
      refine ⟨rfl, ?_⟩
      simp only [FileHandleState.mk.injEq, true_and, and_true, eq_self_iff_true]
      all_goals omega
    · rw [readLoop_buffered _ _ _ _ _ h0 (by simp; omega)]
      refine ⟨rfl, ?_⟩
      simp only [FileHandleState.mk.injEq, true_and, and_true, eq_self_iff_true]
  · intro h location hcond
    rw [adjustWindow, if_neg hcond]

theorem claim_C2_witness :
    ((ReadAt (fun _ => 7) ⟨100, 4, 0, 0, 0, 4, [1, 2, 3, 4], 4, false⟩ 1 2).2.2 = [] ∧
     (ReadAt (fun _ => 7) ⟨100, 4, 0, 0, 0, 4, [1, 2, 3, 4], 4, false⟩ 1 2).1 =
       { (⟨100, 4, 0, 0, 0, 4, [1, 2, 3, 4], 4, false⟩ : FileHandleState) with
          file_offset := 1 + 2, buffer_idx := 1 - 0 + 2,
          buffer_available := 4 - 1 - 2 }) :=
  claim_C2.2.1 (fun _ => 7) ⟨100, 4, 0, 0, 0, 4, [1, 2, 3, 4], 4, false⟩ 1 2 rfl
    (by decide) (by decide) (by decide)

/-- C3 (amended): the implicit-offset read clamps the requested length so it
does not exceed the remaining file length and delegates to the offset form at
the current offset, returning the clamped count — provided the handle's
current offset does not exceed the file length.  At offset = length the read
returns 0 bytes and issues no fetch.  When the offset strictly exceeds the
length, the idx_t subtraction `length - file_offset` wraps around, so no
clamping to zero occurs and the requested count is returned unchanged
(refuting the original claim there, cf. claim_C3_counterexample). -/
theorem claim_C3 :
    (∀ (file : Nat → Nat) (h : FileHandleState) (nrBytes : Nat),
       h.file_offset ≤ h.length →
       (ReadClamped file h nrBytes).1 = min (h.length - h.file_offset) nrBytes ∧
       (ReadClamped file h nrBytes).2 =
         ReadAt file h h.file_offset (min (h.length - h.file_offset) nrBytes))
  ∧ (∀ (file : Nat → Nat) (h : FileHandleState) (nrBytes : Nat),
       h.file_offset = h.length →
       (ReadClamped file h nrBytes).1 = 0 ∧
       (ReadClamped file h nrBytes).2.2.2 = [])
  ∧ (∀ (file : Nat → Nat) (h : FileHandleState) (nrBytes : Nat),
       h.length < h.file_offset →
       nrBytes ≤ U64 - (h.file_offset - h.length) →
       (ReadClamped file h nrBytes).1 = nrBytes) := by
  refine ⟨?_, ?_, ?_⟩
  · intro file h nrBytes hle
    rw [ReadClamped]
    rw [show usub h.length h.file_offset = h.length - h.file_offset from by
      rw [usub, if_pos hle]]
    exact ⟨rfl, rfl⟩
  · intro file h nrBytes heq
    rw [ReadClamped]
    rw [show usub h.length h.file_offset = 0 from by rw [usub, if_pos heq.le]; omega]
    refine ⟨by simp, ?_⟩
    simp only [Nat.zero_min]
    rw [ReadAt, if_neg (by simp), readLoop_zero]
  · intro file h nrBytes hgt hle
    rw [ReadClamped]
    rw [show usub h.length h.file_offset = U64 - (h.file_offset - h.length) from by
      rw [usub, if_neg (by omega)]]
    simp only []
    exact Nat.min_eq_right hle

/-- C3 counterexample: a handle on a 5-byte file whose current offset is 10
(for instance after Seek past end-of-file).  The claim requires the read to
return at most zero additional bytes; the code's unsigned clamp wraps around
and the call returns the full requested 3 bytes. -/
theorem claim_C3_counterexample :
    (ReadClamped (fun _ => 7) ⟨5, 0, 0, 10, 0, 0, [], 4, false⟩ 3).1 = 3 ∧
    (Seek (⟨5, 0, 0, 0, 0, 0, [], 4, false⟩ : FileHandleState) 10).file_offset = 10 := by
  constructor
  · rw [ReadClamped]
    decide
  · decide

theorem claim_C3_witness :
    (ReadClamped (fun _ => 7) ⟨10, 0, 0, 4, 0, 0, [], 4, false⟩ 100).1 =
      min (10 - 4) 100 :=
  (claim_C3.1 (fun _ => 7) ⟨10, 0, 0, 4, 0, 0, [], 4, false⟩ 100 (by decide)).1

/-! ## Glob matcher -/

/-- Modelled from the spec: the items of a shell character class `[...]`, as
pairs (lo, hi) of admissible ranges (a single character is the range (c, c)),
together with the pattern remainder after the closing bracket.  The
per-segment matcher LikeFun::Glob lives in the host engine, outside this
repository; the spec describes it as shell-style glob with `*`, `?` and
character classes. -/
def readClassItems : List Char → Option (List (Char × Char) × List Char)
  | ']' :: ps => some ([], ps)
  | a :: '-' :: b :: ps =>
      if b = ']' then some ([(a, a), ('-', '-')], ps)
      else
        match readClassItems ps with
        | some (items, rest) => some ((a, b) :: items, rest)
        | none => none
  | a :: ps =>
      match readClassItems ps with
      | some (items, rest) => some ((a, a) :: items, rest)
      | none => none
  | [] => none

def charInItems (c : Char) : List (Char × Char) → Bool
  | [] => false
  | (lo, hi) :: rest => (decide (lo ≤ c) && decide (c ≤ hi)) || charInItems c rest

/-- Modelled from the spec: one step of shell-style glob on a single path
segment (`*`, `?`, `[...]` with optional leading `!` negation, and backslash
escape), fuel-bounded so that it is structurally recursive; the wrapper
segGlob always supplies sufficient fuel. -/
def globMatchFuel : Nat → List Char → List Char → Bool
  | 0, _, _ => false
  | _ + 1, [], s => s.isEmpty
  | fuel + 1, '*' :: ps, s =>
      globMatchFuel fuel ps s ||
        (match s with
         | [] => false
         | _ :: ss => globMatchFuel fuel ('*' :: ps) ss)
  | fuel + 1, '?' :: ps, s =>
      (match s with
       | [] => false
       | _ :: ss => globMatchFuel fuel ps ss)
  | fuel + 1, '[' :: ps, s =>
      (match s with
       | [] => false
       | c :: ss =>
         match ps with
         | '!' :: ps2 =>
           (match readClassItems ps2 with
            | none => false
            | some (items, rest) => !(charInItems c items) && globMatchFuel fuel rest ss)
         | _ =>
           (match readClassItems ps with
            | none => false
            | some (items, rest) => charInItems c items && globMatchFuel fuel rest ss))
  | fuel + 1, '\\' :: p :: ps, s =>
      (match s with
       | [] => false
       | c :: ss => (p = c) && globMatchFuel fuel ps ss)
  | _ + 1, ['\\'], s => s = ['\\']
  | fuel + 1, p :: ps, s =>
      (match s with
       | [] => false
       | c :: ss => (p = c) && globMatchFuel fuel ps ss)

/-- Modelled from the spec: per-segment shell glob (the call
`LikeFun::Glob(key->data(), key->length(), pattern->data(), pattern->length())`
at azure_filesystem.cpp line 62, with the host engine's matcher). -/
def segGlob (pat seg : String) : Bool :=
  globMatchFuel (pat.toList.length + seg.toList.length + 1) pat.toList seg.toList

mutual
/-- The glob matcher Match (azure_filesystem.cpp lines 46-69): segment lists
are compared element by element, a `**` pattern segment that is last succeeds
immediately, a non-final `**` tries the pattern remainder against the
successive suffixes of the remaining key (the inner `while (key != key_end)`
loop, rendered by matchTails); success requires both sequences consumed. -/
def Match : List String → List String → Bool
  | k :: ks, p :: ps =>
      if p = "**" then
        if ps.isEmpty then true
        else matchTails (k :: ks) ps
      else segGlob p k && Match ks ps
  | key, pattern => key.isEmpty && pattern.isEmpty
termination_by k p => 2 * (k.length + p.length)

/-- The inner suffix loop of Match for a non-final `**` segment: try the
pattern remainder at each nonempty suffix of the key. -/
def matchTails : List String → List String → Bool
  | [], _ => false
  | k :: ks, ps => Match (k :: ks) ps || matchTails ks ps
termination_by k p => 2 * (k.length + p.length) + 1
end

theorem matchTails_eq_tails (ks ps : List String) (hps : ps ≠ []) :
    matchTails ks ps = (ks.tails.any fun t => Match t ps) := by
  induction ks with
  | nil =>
    cases ps with
    | nil => exact absurd rfl hps
    | cons p ps => simp [matchTails, Match]
  | cons k ks ih => simp [matchTails, List.tails_cons, ih]

/-- C4 (amended): the glob matcher compares slash-split sequences segment by
segment with shell glob per segment; a pattern segment equal to `**` that is
the last pattern segment matches all remaining key segments provided at least
one key segment remains — when the key is already exhausted at the `**`, the
match fails, because pattern segments are only applied while key segments
remain (cf. claim_C4_counterexample refuting the original "immediate
success" for an empty key remainder); a non-final `**` tries the pattern
remainder against every suffix of the remaining key segments; success
requires both sequences fully consumed.  The six concrete examples of the
claim all hold. -/
theorem claim_C4 :
    (Match [] [] = true)
  ∧ (∀ (k : String) (ks : List String), Match (k :: ks) [] = false)
  ∧ (∀ (p : String) (ps : List String), Match [] (p :: ps) = false)
  ∧ (∀ (k : String) (ks : List String), Match (k :: ks) ["**"] = true)
  ∧ (∀ (k : String) (ks ps : List String), ps ≠ [] →
       Match (k :: ks) ("**" :: ps) = ((k :: ks).tails.any fun t => Match t ps))
  ∧ (∀ (k : String) (ks : List String) (p : String) (ps : List String), p ≠ "**" →
       Match (k :: ks) (p :: ps) = (segGlob p k && Match ks ps))
  ∧ (Match ["a", "b", "c"] ["a", "**"] = true)
  ∧ (Match ["a", "b", "c"] ["**"] = true)
  ∧ (Match ["x"] ["a", "**", "b"] = false)
  ∧ (Match ["a", "b"] ["a", "*"] = true)
  ∧ (Match [] [] = true ∧ Match ["a"] [] = false) := by
  have hf : ∀ (k : String) (ks : List String) (p : String) (ps : List String), p ≠ "**" →
      Match (k :: ks) (p :: ps) = (segGlob p k && Match ks ps) := by
    intro k ks p ps hp
    simp [Match, hp]
  refine ⟨by simp [Match], by simp [Match], by simp [Match], by simp [Match], ?_, hf,
    ?_, by simp [Match], ?_, ?_, by simp [Match], by simp [Match]⟩
  · intro k ks ps hps
    rw [Match]
    simp [hps, matchTails_eq_tails (k :: ks) ps hps]
  · rw [hf _ _ _ _ (by decide)]
    simp [Match]
    decide
  · rw [hf _ _ _ _ (by decide)]
    have : segGlob "a" "x" = false := by decide
    simp [this]
  · rw [hf _ _ _ _ (by decide), hf _ _ _ _ (by decide)]
    simp [Match]
    decide

/-- C4 counterexample: when the key segments are already exhausted at a final
`**` pattern segment, the match fails instead of succeeding — `**` does not
match zero remaining key segments here, contrary to the claim's "matches zero
or more whole key segments ... immediate success". -/
theorem claim_C4_counterexample : Match [] ["**"] = false := by
  simp [Match]

theorem claim_C4_witness :
    (Match ["a", "b"] ["**", "b"] = ((["a", "b"].tails).any fun t => Match t ["b"])) ∧
    (Match ["a", "b"] ["a", "*"] = (segGlob "a" "a" && Match ["b"] ["*"])) :=
  ⟨claim_C4.2.2.2.2.1 "a" ["b"] ["b"] (by decide),
   claim_C4.2.2.2.2.2.1 "a" ["b"] "a" ["*"] (by decide)⟩

/-! ## URL parser -/

inductive UrlError
  | wrongScheme
  | invalidFormat
  deriving Repr, DecidableEq

/-- The result of AzureStorageFileSystem::ParseUrl (include/azure_parsed_url.hpp):
container, storage_account_name, endpoint, the scheme part (the source calls
this field `prefix`; it is named pfx here), and path.  Strings are modelled as
character lists. -/
structure AzureParsedUrl where
  container : List Char
  storage_account_name : List Char
  endpoint : List Char
  pfx : List Char
  path : List Char
  deriving Repr, DecidableEq

/-- Split a character list at the first occurrence of c: models
std::string::find(c) plus the substr calls around the found position. -/
def splitAtFirst (c : Char) : List Char → Option (List Char × List Char)
  | [] => none
  | x :: xs =>
      if x = c then some ([], xs)
      else
        match splitAtFirst c xs with
        | none => none
        | some (a, b) => some (x :: a, b)

theorem splitAtFirst_some {c : Char} {l a b : List Char}
    (h : splitAtFirst c l = some (a, b)) : l = a ++ c :: b ∧ c ∉ a := by
  induction l generalizing a b with
  | nil => simp [splitAtFirst] at h
  | cons x xs ih =>
    rw [splitAtFirst] at h
    by_cases hx : x = c
    · rw [if_pos hx] at h
      simp only [Option.some.injEq, Prod.mk.injEq] at h
      obtain ⟨rfl, rfl⟩ := h
      subst hx
      simp
    · rw [if_neg hx] at h
      cases hsp : splitAtFirst c xs with
      | none => rw [hsp] at h; simp at h
      | some ab =>
        obtain ⟨a2, b2⟩ := ab
        rw [hsp] at h
        simp only [Option.some.injEq, Prod.mk.injEq] at h
        obtain ⟨rfl, rfl⟩ := h
        obtain ⟨hl, hna⟩ := ih hsp
        subst hl
        refine ⟨by simp, ?_⟩
        intro hmem
        rcases List.mem_cons.mp hmem with hmem | hmem
        · exact hx hmem.symm
        · exact hna hmem

theorem splitAtFirst_not_mem {c : Char} {l : List Char} (hc : c ∉ l) :
    splitAtFirst c l = none := by
  induction l with
  | nil => rfl
  | cons x xs ih =>
    rw [splitAtFirst, if_neg (by intro hx; exact hc (hx ▸ List.mem_cons_self x xs)),
      ih (fun hm => hc (List.mem_cons_of_mem x hm))]

theorem splitAtFirst_none_not_mem {c : Char} {l : List Char}
    (h : splitAtFirst c l = none) : c ∉ l := by
  induction l with
  | nil => simp
  | cons x xs ih =>
    rw [splitAtFirst] at h
    by_cases hx : x = c
    · rw [if_pos hx] at h
      exact absurd h (by simp)
    · rw [if_neg hx] at h
      cases hs : splitAtFirst c xs with
      | none =>
        intro hmem
        rcases List.mem_cons.mp hmem with hmem | hmem
        · exact hx hmem.symm
        · exact ih hs hmem
      | some p =>
        obtain ⟨a, b⟩ := p
        rw [hs] at h
        exact absurd h (by simp)

theorem splitAtFirst_append {c : Char} {a : List Char} (hc : c ∉ a) (b : List Char) :
    splitAtFirst c (a ++ c :: b) = some (a, b) := by
  induction a with
  | nil => simp [splitAtFirst]
  | cons x xs ih =>
    have hx : ¬ x = c := by
      intro hx
      exact hc (hx ▸ List.mem_cons_self x xs)
    rw [List.cons_append, splitAtFirst, if_neg hx,
      ih (fun hm => hc (List.mem_cons_of_mem x hm))]

/-- ParseUrl after the scheme prefix has been recognized and removed
(azure_filesystem.cpp lines 336-373): `pfx` is the scheme substring, `rest`
the remainder of the URL.  A `.` before the first `/` selects the
account.endpoint shape. -/
def parseAfter (pfx rest : List Char) : Except UrlError AzureParsedUrl :=
  match splitAtFirst '/' rest with
  | none => .error .invalidFormat
  | some (authority, afterSlash) =>
    match splitAtFirst '.' authority with
    | some (account, endpointPart) =>
        match splitAtFirst '/' afterSlash with
        | none => .error .invalidFormat
        | some (container, path) =>
            .ok ⟨container, account, endpointPart, pfx, path⟩
    | none =>
        if authority = [] then .error .invalidFormat
        else .ok ⟨authority, [], [], pfx, afterSlash⟩

/-- AzureStorageFileSystem::ParseUrl (azure_filesystem.cpp lines 329-374). -/
def ParseUrl (url : List Char) : Except UrlError AzureParsedUrl :=
  if ("azure://".toList).isPrefixOf url then
    parseAfter ("azure://".toList) (url.drop 8)
  else if ("az://".toList).isPrefixOf url then
    parseAfter ("az://".toList) (url.drop 5)
  else .error .wrongScheme

/-- Reconstruction of a URL from its parsed fields, in the way the repository
itself reassembles result URLs (azure_filesystem.cpp line 199): the
account.endpoint form is used exactly when the parsed account name is
nonempty. -/
def reconstructUrl (p : AzureParsedUrl) : List Char :=
  if p.storage_account_name = [] then
    p.pfx ++ p.container ++ '/' :: p.path
  else
    p.pfx ++ p.storage_account_name ++ '.' :: p.endpoint ++ '/' :: p.container ++ '/' :: p.path

theorem parseAfter_sound {pfx rest : List Char} {r : AzureParsedUrl}
    (h : parseAfter pfx rest = .ok r) :
    r.pfx = pfx ∧
    ((r.storage_account_name = [] ∧ r.endpoint = [] ∧
        rest = r.container ++ '/' :: r.path) ∨
     rest = r.storage_account_name ++ '.' :: r.endpoint ++ '/' :: r.container ++ '/' :: r.path) := by
  rw [parseAfter] at h
  split at h
  · exact absurd h (by simp)
  · rename_i authority afterSlash h1
    split at h
    · rename_i account endpointPart h2
      split at h
      · exact absurd h (by simp)
      · rename_i container path h3
        simp only [Except.ok.injEq] at h
        subst h
        obtain ⟨hre, _⟩ := splitAtFirst_some h1
        obtain ⟨hau, _⟩ := splitAtFirst_some h2
        obtain ⟨haf, _⟩ := splitAtFirst_some h3
        refine ⟨rfl, Or.inr ?_⟩
        rw [hre, hau, haf]
        simp
    · rename_i h2
      split at h
      · exact absurd h (by simp)
      · rename_i hae
        simp only [Except.ok.injEq] at h
        subst h
        obtain ⟨hre, _⟩ := splitAtFirst_some h1
        exact ⟨rfl, Or.inl ⟨rfl, rfl, hre⟩⟩

/-- C7 (amended): parse accepts exactly the two shapes
scheme://container/[path] and scheme://account.endpoint/container/[path]
with the two interchangeable scheme spellings azure:// and az://, selecting
the account.endpoint shape when a `.` appears before the first `/` after the
scheme; every accepted URL is reproduced exactly by reassembling the parsed
fields (so the exact scheme prefix is preserved and the path excludes the
container segment), and when an account name is present reconstructUrl
reproduces the input; wrong scheme, a missing `/` after the authority, a
missing container/path separator in the account shape, and an empty container
in the container-first shape all fail.  An empty container is rejected only
in the scheme://container/[path] shape: in the account.endpoint shape an
empty container parses successfully (claim_C7_counterexample), contrary to
the original claim. -/
theorem claim_C7 :
    (∀ (url : List Char) (r : AzureParsedUrl), ParseUrl url = .ok r →
       (r.pfx = "azure://".toList ∨ r.pfx = "az://".toList) ∧
       (url = r.pfx ++ r.container ++ '/' :: r.path ∨
        url = r.pfx ++ r.storage_account_name ++ '.' :: r.endpoint ++ '/' ::
          r.container ++ '/' :: r.path) ∧
       (r.storage_account_name ≠ [] → reconstructUrl r = url))
  ∧ (∀ (pfx container path : List Char),
       (pfx = "azure://".toList ∨ pfx = "az://".toList) →
       container ≠ [] → '/' ∉ container → '.' ∉ container →
       ParseUrl (pfx ++ container ++ '/' :: path) = .ok ⟨container, [], [], pfx, path⟩)
  ∧ (∀ (pfx account endpoint container path : List Char),
       (pfx = "azure://".toList ∨ pfx = "az://".toList) →
       '.' ∉ account → '/' ∉ account → '/' ∉ endpoint → '/' ∉ container →
       ParseUrl (pfx ++ account ++ '.' :: endpoint ++ '/' :: container ++ '/' :: path) =
         .ok ⟨container, account, endpoint, pfx, path⟩)
  ∧ (∀ (url : List Char),
       ("azure://".toList).isPrefixOf url = false →
       ("az://".toList).isPrefixOf url = false →
       ParseUrl url = .error .wrongScheme)
  ∧ (∀ (pfx rest : List Char), '/' ∉ rest → parseAfter pfx rest = .error .invalidFormat)
  ∧ (∀ (pfx authority rest2 : List Char), '/' ∉ authority → '.' ∈ authority →
       '/' ∉ rest2 →
       parseAfter pfx (authority ++ '/' :: rest2) = .error .invalidFormat)
  ∧ (∀ (pfx rs : List Char), parseAfter pfx ('/' :: rs) = .error .invalidFormat) := by
  have hdrop8 : ∀ t : List Char, ("azure://".toList ++ t).drop 8 = t := by
    intro t
    rw [show (8 : Nat) = ("azure://".toList).length from rfl, List.drop_left]
  have hdrop5 : ∀ t : List Char, ("az://".toList ++ t).drop 5 = t := by
    intro t
    rw [show (5 : Nat) = ("az://".toList).length from rfl, List.drop_left]
  have hself : ∀ (s t : List Char), s.isPrefixOf (s ++ t) = true := by
    intro s t
    rw [List.isPrefixOf_iff_prefix]
    exact ⟨t, rfl⟩
  have haznotaz : ∀ t : List Char, ("azure://".toList).isPrefixOf ("az://".toList ++ t) = false := by
    intro t
    rfl
  have hpuAzure : ∀ rest : List Char,
      ParseUrl ("azure://".toList ++ rest) = parseAfter "azure://".toList rest := by
    intro rest
    rw [ParseUrl, if_pos (hself _ rest), hdrop8]
  have hpuAz : ∀ rest : List Char,
      ParseUrl ("az://".toList ++ rest) = parseAfter "az://".toList rest := by
    intro rest
    rw [ParseUrl, if_neg (by rw [haznotaz rest]; simp), if_pos (hself _ rest), hdrop5]
  refine ⟨?_, ?_, ?_, ?_, ?_, ?_, ?_⟩
  · intro url r h
    rw [ParseUrl] at h
    by_cases h1 : ("azure://".toList).isPrefixOf url
    · rw [if_pos h1] at h
      obtain ⟨t, rfl⟩ := List.isPrefixOf_iff_prefix.mp h1
      rw [hdrop8] at h
      obtain ⟨hpfx, hshape⟩ := parseAfter_sound h
      refine ⟨Or.inl hpfx, ?_, ?_⟩
      · rcases hshape with ⟨_, _, hsh⟩ | hsh
        · exact Or.inl (by rw [hpfx, hsh]; simp)
        · exact Or.inr (by rw [hpfx, hsh]; simp)
      · intro hacc
        rcases hshape with ⟨hacc0, _, _⟩ | hsh
        · exact absurd hacc0 hacc
        · rw [reconstructUrl, if_neg hacc, hpfx, hsh]
          simp
    · rw [if_neg h1] at h
      by_cases h2 : ("az://".toList).isPrefixOf url
      · rw [if_pos h2] at h
        obtain ⟨t, rfl⟩ := List.isPrefixOf_iff_prefix.mp h2
        rw [hdrop5] at h
        obtain ⟨hpfx, hshape⟩ := parseAfter_sound h
        refine ⟨Or.inr hpfx, ?_, ?_⟩
        · rcases hshape with ⟨_, _, hsh⟩ | hsh
          · exact Or.inl (by rw [hpfx, hsh]; simp)
          · exact Or.inr (by rw [hpfx, hsh]; simp)
        · intro hacc
          rcases hshape with ⟨hacc0, _, _⟩ | hsh
          · exact absurd hacc0 hacc
          · rw [reconstructUrl, if_neg hacc, hpfx, hsh]
            simp
      · rw [if_neg h2] at h
        exact absurd h (by simp)
  · intro pfx container path hp hc hslash hdot
    have hbody : parseAfter pfx (container ++ '/' :: path) = .ok ⟨container, [], [], pfx, path⟩ := by
      simp only [parseAfter, splitAtFirst_append hslash path, splitAtFirst_not_mem hdot]
      rw [if_neg hc]
    rcases hp with rfl | rfl
    · rw [List.append_assoc, hpuAzure, hbody]
    · rw [List.append_assoc, hpuAz, hbody]
  · intro pfx account endpoint container path hp hdacc hsacc hsep hscont
    have hnoslash : '/' ∉ account ++ '.' :: endpoint := by
      intro hm
      rcases List.mem_append.mp hm with hm | hm
      · exact hsacc hm
      · rcases List.mem_cons.mp hm with hm | hm
        · exact absurd hm (by decide)
        · exact hsep hm
    have hbody : parseAfter pfx (account ++ '.' :: endpoint ++ '/' :: container ++ '/' :: path) =
        .ok ⟨container, account, endpoint, pfx, path⟩ := by
      rw [show account ++ '.' :: endpoint ++ '/' :: container ++ '/' :: path =
          (account ++ '.' :: endpoint) ++ '/' :: (container ++ '/' :: path) from by simp]
      simp only [parseAfter, splitAtFirst_append hnoslash (container ++ '/' :: path),
        splitAtFirst_append hdacc endpoint, splitAtFirst_append hscont path]
    rcases hp with rfl | rfl
    · rw [show "azure://".toList ++ account ++ '.' :: endpoint ++ '/' :: container ++ '/' :: path =
          "azure://".toList ++ (account ++ '.' :: endpoint ++ '/' :: container ++ '/' :: path) from
          by simp, hpuAzure, hbody]
    · rw [show "az://".toList ++ account ++ '.' :: endpoint ++ '/' :: container ++ '/' :: path =
          "az://".toList ++ (account ++ '.' :: endpoint ++ '/' :: container ++ '/' :: path) from
          by simp, hpuAz, hbody]
  · intro url h1 h2
    rw [ParseUrl, if_neg (by rw [h1]; simp), if_neg (by rw [h2]; simp)]
  · intro pfx rest hns
    simp only [parseAfter, splitAtFirst_not_mem hns]
  · intro pfx authority rest2 hns hdot hns2
    obtain ⟨a, b, hsplit⟩ : ∃ a b, splitAtFirst '.' authority = some (a, b) := by
      cases hs : splitAtFirst '.' authority with
      | none => exact absurd hdot (splitAtFirst_none_not_mem hs)
      | some p =>
        obtain ⟨a, b⟩ := p
        exact ⟨a, b, rfl⟩
    simp only [parseAfter, splitAtFirst_append hns rest2, hsplit, splitAtFirst_not_mem hns2]
  · intro pfx rs
    rfl

/-- C7 counterexample: in the account.endpoint shape an empty container is
accepted — `azure://a.e//p` parses successfully with container = "" instead
of failing with InvalidFormat as the claim requires for an empty container. -/
theorem claim_C7_counterexample :
    ParseUrl ("azure://a.e//p".toList) =
      .ok ⟨[], ['a'], ['e'], "azure://".toList, ['p']⟩ ∧
    (AzureParsedUrl.mk [] ['a'] ['e'] ("azure://".toList) ['p']).container = [] := by
  exact ⟨rfl, rfl⟩

theorem claim_C7_witness :
    ParseUrl ("az://".toList ++ "cont".toList ++ '/' :: "dir/data.csv".toList) =
      .ok ⟨"cont".toList, [], [], "az://".toList, "dir/data.csv".toList⟩ :=
  claim_C7.2.1 ("az://".toList) ("cont".toList) ("dir/data.csv".toList)
    (Or.inr rfl) (by decide) (by decide) (by decide)

/-! ## Listing/Glob driver -/

/-- Modelled from the spec: the host engine's slash-split utility
(StringUtil::Split(s, "/")), producing the nonempty segments. -/
def splitChar (c : Char) : List Char → List (List Char)
  | [] => [[]]
  | x :: xs =>
      if x = c then [] :: splitChar c xs
      else
        match splitChar c xs with
        | [] => [[x]]
        | g :: gs => (x :: g) :: gs

def splitSlash (s : String) : List String :=
  ((splitChar '/' s.toList).filter (fun l => l ≠ [])).map (fun l => String.mk l)

/-- One page of an Azure ListBlobs response: the returned blob keys and
whether the response carries a continuation token (NextPageToken). -/
structure ListPage where
  keys : List String
  hasNext : Bool
  deriving Repr, DecidableEq

/-- The wildcard scan of the glob driver: find_first_of("*[\\") at
azure_filesystem.cpp line 185 looks only for `*`, `[` and `\`. -/
def hasGlobWildcard (s : String) : Bool :=
  s.toList.any (fun c => c = '*' || c = '[' || c = '\\')

/-- substr(0, first_wildcard_pos): the server-side prefix filter. -/
def sharedPathOf (s : String) : String :=
  String.mk (s.toList.takeWhile (fun c => !(c = '*' || c = '[' || c = '\\')))

/-- The pagination loop of AzureStorageFileSystem::Glob (azure_filesystem.cpp
lines 200-229): each iteration consumes the next listing page, filters its
keys through Match against the full slash-split pattern, appends the
reconstructed fully-qualified URLs in listing order, and continues exactly
while the response carries a continuation token.  Returns the URL list and
the number of ListBlobs calls issued. -/
def globLoop (patternSplits : List String) (resultBase : String) :
    List ListPage → List String × Nat
  | [] => ([], 0)
  | page :: rest =>
      let matched := (page.keys.filter
        (fun k => Match (splitSlash k) patternSplits)).map
          (fun k => resultBase ++ "/" ++ k)
      if page.hasNext then
        let r := globLoop patternSplits resultBase rest
        (matched ++ r.1, r.2 + 1)
      else (matched, 1)

/-- AzureStorageFileSystem::Glob (azure_filesystem.cpp lines 176-232), with
the remote listing represented by the sequence of pages the service returns.
Result: matched URLs, number of ListBlobs calls, and the server-side prefix
passed to the listing (none when the wildcard short-circuit returns the input
path without any listing call). -/
def Glob (azureUrl : AzureParsedUrl) (originalPath : String) (pages : List ListPage) :
    List String × Nat × Option String :=
  let pathStr := String.mk azureUrl.path
  if hasGlobWildcard pathStr = false then ([originalPath], 0, none)
  else
    let patternSplits := splitSlash pathStr
    let resultBase :=
      if azureUrl.storage_account_name = [] then
        String.mk azureUrl.pfx ++ String.mk azureUrl.container
      else
        String.mk azureUrl.pfx ++ String.mk azureUrl.storage_account_name ++ "." ++
          String.mk azureUrl.endpoint ++ "/" ++ String.mk azureUrl.container
    let r := globLoop patternSplits resultBase pages
    (r.1, r.2, some (sharedPathOf pathStr))

theorem globLoop_pages (pat : List String) (base : String) (ps : List ListPage)
    (last : ListPage) (hps : ∀ p ∈ ps, p.hasNext = true) (hlast : last.hasNext = false) :
    globLoop pat base (ps ++ [last]) =
      (((ps ++ [last]).map (fun page =>
          (page.keys.filter (fun k => Match (splitSlash k) pat)).map
            (fun k => base ++ "/" ++ k))).flatten,
       ps.length + 1) := by
  induction ps with
  | nil => simp [globLoop, hlast]
  | cons p ps ih =>
    have hp : p.hasNext = true := hps p (List.mem_cons_self p ps)
    have ih2 := ih (fun q hq => hps q (List.mem_cons_of_mem p hq))
    simp [globLoop, hp, ih2]

/-- C5: when the parsed blob path contains none of the wildcard characters the
driver scans for, glob returns exactly the one-element sequence holding the
input path and performs zero listing calls; otherwise it lists with the
substring up to the first wildcard as server-side prefix, filters every
returned key through the glob matcher against the full slash-split pattern,
reconstructs each match into a fully-qualified URL from the original
prefix/account/endpoint/container, and consumes pages exactly while the
response carries a continuation token (one ListBlobs call per page, no page
re-issued).  For azure://acct.ep/container/data/**/*.csv over the listing
data/a/x.csv, data/a/x.parquet, data/b/c/y.csv the result is the two
fully-qualified CSV URLs in listing order. -/
theorem claim_C5 :
    (∀ (url : AzureParsedUrl) (originalPath : String) (pages : List ListPage),
       hasGlobWildcard (String.mk url.path) = false →
       Glob url originalPath pages = ([originalPath], 0, none))
  ∧ (∀ (pat : List String) (base : String) (ps : List ListPage) (last : ListPage),
       (∀ p ∈ ps, p.hasNext = true) → last.hasNext = false →
       globLoop pat base (ps ++ [last]) =
         (((ps ++ [last]).map (fun page =>
             (page.keys.filter (fun k => Match (splitSlash k) pat)).map
               (fun k => base ++ "/" ++ k))).flatten,
          ps.length + 1))
  ∧ (∀ (url : AzureParsedUrl) (originalPath : String) (pages : List ListPage),
       hasGlobWildcard (String.mk url.path) = true →
       (Glob url originalPath pages).2.2 = some (sharedPathOf (String.mk url.path)))
  ∧ (ParseUrl "azure://acct.ep/container/data/**/*.csv".toList =
       .ok ⟨"container".toList, "acct".toList, "ep".toList, "azure://".toList,
         "data/**/*.csv".toList⟩)
  ∧ (Glob ⟨"container".toList, "acct".toList, "ep".toList, "azure://".toList,
        "data/**/*.csv".toList⟩
      "azure://acct.ep/container/data/**/*.csv"
      [⟨["data/a/x.csv", "data/a/x.parquet", "data/b/c/y.csv"], false⟩] =
     (["azure://acct.ep/container/data/a/x.csv", "azure://acct.ep/container/data/b/c/y.csv"],
      1, some "data/")) := by
  refine ⟨?_, globLoop_pages, ?_, rfl, ?_⟩
  · intro url originalPath pages h
    simp [Glob, h]
  · intro url originalPath pages h
    simp [Glob, h]
  · have hm1 : Match ["data", "a", "x.csv"] ["data", "**", "*.csv"] = true := by
      simp [Match, matchTails]
      decide
    have hm2 : Match ["data", "a", "x.parquet"] ["data", "**", "*.csv"] = false := by
      simp [Match, matchTails]
      decide
    have hm3 : Match ["data", "b", "c", "y.csv"] ["data", "**", "*.csv"] = true := by
      simp [Match, matchTails]
      decide
    have hs1 : splitSlash "data/a/x.csv" = ["data", "a", "x.csv"] := by decide
    have hs2 : splitSlash "data/a/x.parquet" = ["data", "a", "x.parquet"] := by decide
    have hs3 : splitSlash "data/b/c/y.csv" = ["data", "b", "c", "y.csv"] := by decide
    have hsp : splitSlash "data/**/*.csv" = ["data", "**", "*.csv"] := by decide
    have hw : hasGlobWildcard "data/**/*.csv" = true := by decide
    have hshared : sharedPathOf "data/**/*.csv" = "data/" := by decide
    simp [Glob, globLoop, hs1, hs2, hs3, hsp, hm1, hm2, hm3, hw, hshared]

theorem claim_C5_witness :
    Glob ⟨"container".toList, [], [], "azure://".toList, "data/plain.csv".toList⟩
      "azure://container/data/plain.csv" [⟨["data/plain.csv"], false⟩] =
      (["azure://container/data/plain.csv"], 0, none) :=
  claim_C5.1 ⟨"container".toList, [], [], "azure://".toList, "data/plain.csv".toList⟩
    "azure://container/data/plain.csv" [⟨["data/plain.csv"], false⟩] (by decide)

/-- C10: the glob driver's wildcard short-circuit scans only for the
characters `*`, `[` and `\` — a parsed path containing `?` but none of those
returns the single input path with zero listing calls, even though the
per-segment matcher itself treats `?` as a single-character wildcard, so a
`?`-only pattern never reaches the matcher. -/
theorem claim_C10 :
    (∀ (url : AzureParsedUrl) (originalPath : String) (pages : List ListPage),
       (∀ c ∈ url.path, c ≠ '*' ∧ c ≠ '[' ∧ c ≠ '\\') →
       Glob url originalPath pages = ([originalPath], 0, none))
  ∧ (hasGlobWildcard "data/x?.csv" = false)
  ∧ (segGlob "x?.csv" "xa.csv" = true ∧ segGlob "x?.csv" "xz.csv" = true ∧
     segGlob "x?.csv" "x.csv" = false)
  ∧ (Glob ⟨"container".toList, [], [], "azure://".toList, "data/x?.csv".toList⟩
       "azure://container/data/x?.csv"
       [⟨["data/xa.csv", "data/xz.csv"], false⟩] =
     (["azure://container/data/x?.csv"], 0, none)) := by
  have hscan : ∀ (url : AzureParsedUrl),
      (∀ c ∈ url.path, c ≠ '*' ∧ c ≠ '[' ∧ c ≠ '\\') →
      hasGlobWildcard (String.mk url.path) = false := by
    intro url h
    rw [hasGlobWildcard]
    rw [List.any_eq_false]
    intro c hc
    have hmem : c ∈ url.path := by
      have : (String.mk url.path).toList = url.path := rfl
      rw [this] at hc
      exact hc
    obtain ⟨h1, h2, h3⟩ := h c hmem
    simp [h1, h2, h3]
  refine ⟨?_, by decide, ⟨by decide, by decide, by decide⟩, by decide⟩
  intro url originalPath pages h
  simp [Glob, hscan url h]

theorem claim_C10_witness :
    Glob ⟨"container".toList, [], [], "azure://".toList, "d?.csv".toList⟩
      "azure://container/d?.csv" [⟨["da.csv"], false⟩] =
      (["azure://container/d?.csv"], 0, none) :=
  claim_C10.1 ⟨"container".toList, [], [], "azure://".toList, "d?.csv".toList⟩
    "azure://container/d?.csv" [⟨["da.csv"], false⟩] (by decide)

/-! ## Credential resolver (azure_storage_account_client.cpp) -/

inductive CredError
  | invalidCredentials
  | invalidConnectionString
  | missingField (name : String)
  | invalidConfig (what : String)
  | unsupportedProvider (p : String)
  | missingCredentials
  deriving Repr, DecidableEq

deriving instance DecidableEq for Except

/-- A KeyValueSecret of type azure as the resolver reads it: provider tag and
the recognized optional fields (TryGetValue returning IsNull for absent
keys). -/
structure KeyValueSecret where
  provider : String
  connection_string : Option String := none
  endpoint : Option String := none
  account_name : Option String := none
  chain : Option String := none
  tenant_id : Option String := none
  client_id : Option String := none
  client_secret : Option String := none
  client_certificate_path : Option String := none
  http_proxy : Option String := none
  proxy_user_name : Option String := none
  proxy_password : Option String := none
  deriving Repr, DecidableEq

/-- The session configuration variables the resolver consults
(TryGetCurrentSetting; absent settings read as their defaults). -/
structure AzureSettings where
  transport_option_type : String := "default"
  azure_storage_connection_string : String := ""
  azure_endpoint : String := ""
  azure_account_name : String := ""
  azure_credential_chain : String := ""
  azure_http_proxy : String := ""
  azure_proxy_user_name : String := ""
  azure_proxy_password : String := ""
  deriving Repr, DecidableEq

inductive TransportKind
  | defaultTransport (proxy userName password : String)
  | curlTransport (proxy userName password : String)
  deriving Repr, DecidableEq

/-- GetTransportOptions(transport_option_type, proxy, user, password)
(azure_storage_account_client.cpp lines 208-232). -/
def getTransportOptions (ty proxy userName password : String) :
    Except CredError TransportKind :=
  if ty = "default" then .ok (.defaultTransport proxy userName password)
  else if ty = "curl" then .ok (.curlTransport proxy userName password)
  else .error (.invalidConfig "transport_option_type")

/-- GetTransportOptions(opener, secret) (lines 234-263): proxy settings come
from the secret, falling back to the HTTP_PROXY environment variable. -/
def getTransportOptionsSecret (settings : AzureSettings) (httpProxyEnv : String)
    (secret : KeyValueSecret) : Except CredError TransportKind :=
  let proxy := match secret.http_proxy with
    | some p => p
    | none => httpProxyEnv
  getTransportOptions settings.transport_option_type proxy
    ((secret.proxy_user_name).getD "") ((secret.proxy_password).getD "")

/-- std::string::find of a pattern: position of its first occurrence. -/
def findSubstr (s pat : List Char) : Option Nat :=
  if pat.isPrefixOf s then some 0
  else
    match s with
    | [] => none
    | _ :: rest => (findSubstr rest pat).map (· + 1)

/-- ConnectionStringMatchStorageAccountName (lines 42-54): an empty requested
account always matches; a connection string without "AccountName=" is
rejected as invalid; otherwise connection_string.compare(pos + 12,
provided.size(), provided) compares exactly provided.size() characters after
"AccountName=" — a prefix comparison against the embedded value. -/
def connectionStringMatchStorageAccountName (connectionString providedAccount : String) :
    Except CredError Bool :=
  if providedAccount = "" then .ok true
  else
    match findSubstr connectionString.toList ("AccountName=".toList) with
    | none => .error .invalidConnectionString
    | some pos =>
        .ok (decide ((connectionString.toList.drop (pos + 12)).take
          providedAccount.toList.length = providedAccount.toList))

/-- KVSEndpoint (lines 56-66). -/
def KVSEndpoint (secret : KeyValueSecret) (providedEndpoint : String) : String :=
  if providedEndpoint = "" then
    match secret.endpoint with
    | none => "blob.core.windows.net"
    | some e => e
  else providedEndpoint

/-- KVSStorageAccount (lines 68-73): TryGetValue("account_name", true) throws
on a missing key. -/
def KVSStorageAccount (secret : KeyValueSecret) (providedAccount : String) :
    Except CredError String :=
  if providedAccount = "" then
    match secret.account_name with
    | none => .error (.missingField "account_name")
    | some a => .ok a
  else .ok providedAccount

/-- AccountUrl (lines 75-79). -/
def AccountUrl (secret : KeyValueSecret) (providedAccount providedEndpoint : String) :
    Except CredError String :=
  match KVSStorageAccount secret providedAccount with
  | .error e => .error e
  | .ok acct => .ok ("https://" ++ acct ++ "." ++ KVSEndpoint secret providedEndpoint)

inductive ChainSource
  | cli
  | managedIdentity
  | envCred
  | defaultCred
  deriving Repr, DecidableEq

/-- Modelled from the spec: the host engine's split on a single character,
dropping empty entries, used for the semicolon-separated chain list. -/
def chainSplit (s : String) : List String :=
  ((splitChar ';' s.toList).filter (fun l => l ≠ [])).map (fun l => String.mk l)

/-- CreateChainedTokenCredential (lines 118-140): unknown strategy names are
rejected. -/
def createChainedTokenCredential (chain : String) : Except CredError (List ChainSource) :=
  (chainSplit chain).mapM (fun item =>
    if item = "cli" then .ok .cli
    else if item = "managed_identity" then .ok .managedIdentity
    else if item = "env" then .ok .envCred
    else if item = "default" then .ok .defaultCred
    else .error (.invalidConfig ("unknown credential provider " ++ item)))

inductive ClientCredential
  | clientSecretCred (tenant client secretValue : String)
  | clientCertificate (tenant client path : String)
  | chained (sources : List ChainSource)
  deriving Repr, DecidableEq

/-- CreateClientCredential (lines 142-157): a nonempty client secret wins,
else a nonempty certificate path; with neither, resolution fails before any
client is constructed. -/
def createClientCredential (tenantId clientId clientSecretVal clientCertificatePath : String) :
    Except CredError ClientCredential :=
  if clientSecretVal ≠ "" then .ok (.clientSecretCred tenantId clientId clientSecretVal)
  else if clientCertificatePath ≠ "" then
    .ok (.clientCertificate tenantId clientId clientCertificatePath)
  else .error (.invalidConfig "client_secret or client_certificate_path")

/-- The constructed BlobServiceClient, by construction path. -/
inductive BlobServiceClientSpec
  | fromConnectionString (connectionString : String) (transport : TransportKind)
  | anonymous (accountUrl : String) (transport : TransportKind)
  | withCredential (accountUrl : String) (cred : ClientCredential) (transport : TransportKind)
  deriving Repr, DecidableEq

/-- GetStorageAccountClientFromConfigProvider (lines 265-289). -/
def getStorageAccountClientFromConfigProvider (settings : AzureSettings)
    (httpProxyEnv : String) (secret : KeyValueSecret)
    (providedAccount providedEndpoint : String) : Except CredError BlobServiceClientSpec :=
  match getTransportOptionsSecret settings httpProxyEnv secret with
  | .error e => .error e
  | .ok transport =>
    match secret.connection_string with
    | some cs =>
        (match connectionStringMatchStorageAccountName cs providedAccount with
         | .error e => .error e
         | .ok m =>
             if m then .ok (.fromConnectionString cs transport)
             else .error .invalidCredentials)
    | none =>
        (match AccountUrl secret providedAccount providedEndpoint with
         | .error e => .error e
         | .ok url => .ok (.anonymous url transport))

/-- GetStorageAccountClientFromCredentialChainProvider (lines 291-310). -/
def getStorageAccountClientFromCredentialChainProvider (settings : AzureSettings)
    (httpProxyEnv : String) (secret : KeyValueSecret)
    (providedAccount providedEndpoint : String) : Except CredError BlobServiceClientSpec :=
  match getTransportOptionsSecret settings httpProxyEnv secret with
  | .error e => .error e
  | .ok transport =>
    match createChainedTokenCredential ((secret.chain).getD "default") with
    | .error e => .error e
    | .ok sources =>
        (match AccountUrl secret providedAccount providedEndpoint with
         | .error e => .error e
         | .ok url => .ok (.withCredential url (.chained sources) transport))

/-- GetStorageAccountClientFromServicePrincipalProvider (lines 312-334). -/
def getStorageAccountClientFromServicePrincipalProvider (settings : AzureSettings)
    (httpProxyEnv : String) (secret : KeyValueSecret)
    (providedAccount providedEndpoint : String) : Except CredError BlobServiceClientSpec :=
  match getTransportOptionsSecret settings httpProxyEnv secret with
  | .error e => .error e
  | .ok transport =>
    match secret.tenant_id with
    | none => .error (.missingField "tenant_id")
    | some tenantId =>
      match secret.client_id with
      | none => .error (.missingField "client_id")
      | some clientId =>
        match createClientCredential tenantId clientId ((secret.client_secret).getD "")
            ((secret.client_certificate_path).getD "") with
        | .error e => .error e
        | .ok cred =>
            (match AccountUrl secret providedAccount providedEndpoint with
             | .error e => .error e
             | .ok url => .ok (.withCredential url cred transport))

/-- GetStorageAccountClient(opener, secret, account, endpoint)
(lines 336-353): dispatch on the secret's provider tag. -/
def getStorageAccountClientSecret (settings : AzureSettings) (httpProxyEnv : String)
    (secret : KeyValueSecret) (providedAccount providedEndpoint : String) :
    Except CredError BlobServiceClientSpec :=
  if secret.provider = "config" then
    getStorageAccountClientFromConfigProvider settings httpProxyEnv secret
      providedAccount providedEndpoint
  else if secret.provider = "credential_chain" then
    getStorageAccountClientFromCredentialChainProvider settings httpProxyEnv secret
      providedAccount providedEndpoint
  else if secret.provider = "service_principal" then
    getStorageAccountClientFromServicePrincipalProvider settings httpProxyEnv secret
      providedAccount providedEndpoint
  else .error (.unsupportedProvider secret.provider)

/-- GetStorageAccountClient(opener, account, endpoint) (lines 366-409): the
session-configuration fallback.  Note the short-circuit && at lines 373-374:
a nonempty connection string that does not match the requested account is
skipped, not an error. -/
def getStorageAccountClientSettings (settings : AzureSettings)
    (providedAccount providedEndpoint : String) : Except CredError BlobServiceClientSpec :=
  match getTransportOptions settings.transport_option_type settings.azure_http_proxy
      settings.azure_proxy_user_name settings.azure_proxy_password with
  | .error e => .error e
  | .ok transport =>
    let cs := settings.azure_storage_connection_string
    match (if cs ≠ "" then connectionStringMatchStorageAccountName cs providedAccount
           else .ok false) with
    | .error e => .error e
    | .ok useCs =>
      if useCs then .ok (.fromConnectionString cs transport)
      else
        let endpoint := if providedEndpoint = "" then
            (if settings.azure_endpoint = "" then "blob.core.windows.net"
             else settings.azure_endpoint)
          else providedEndpoint
        let acct := if providedAccount = "" then settings.azure_account_name
          else providedAccount
        if acct = "" then .error .missingCredentials
        else
          let url := "https://" ++ acct ++ "." ++ endpoint
          if settings.azure_credential_chain ≠ "" then
            match createChainedTokenCredential settings.azure_credential_chain with
            | .error e => .error e
            | .ok sources => .ok (.withCredential url (.chained sources) transport)
          else .ok (.anonymous url transport)

theorem isPrefixOf_append_self (s t : List Char) : s.isPrefixOf (s ++ t) = true := by
  rw [List.isPrefixOf_iff_prefix]
  exact ⟨t, rfl⟩

/-- ConnectToStorageAccount (lines 411-429): a matching azure secret wins,
else the session-configuration fallback. -/
def connectToStorageAccount (settings : AzureSettings) (httpProxyEnv : String)
    (secretLookup : Option KeyValueSecret) (parsedUrl : AzureParsedUrl) :
    Except CredError BlobServiceClientSpec :=
  match secretLookup with
  | some secret =>
      getStorageAccountClientSecret settings httpProxyEnv secret
        (String.mk parsedUrl.storage_account_name) (String.mk parsedUrl.endpoint)
  | none =>
      getStorageAccountClientSettings settings
        (String.mk parsedUrl.storage_account_name) (String.mk parsedUrl.endpoint)

/-- C8 (amended): when credential resolution builds a client from a
connection string and an account name was explicitly requested, the check is
a length-limited comparison of the characters after "AccountName=" with the
requested name — i.e. the embedded value need only START WITH the requested
name, not equal it.  In the config-provider secret path a failed check raises
InvalidCredentials; in the session-configuration fallback a failed check
silently skips the connection string and resolution continues with the
account-URL based steps (it does not fail).  The original claim's "exact
account" and "never silently skipped" parts are refuted by
claim_C8_counterexample. -/
theorem claim_C8 :
    (∀ (settings : AzureSettings) (env : String) (secret : KeyValueSecret)
       (acct ep cs : String) (tr : TransportKind),
       secret.provider = "config" → secret.connection_string = some cs →
       getTransportOptionsSecret settings env secret = .ok tr →
       connectionStringMatchStorageAccountName cs acct = .ok false →
       getStorageAccountClientSecret settings env secret acct ep =
         .error .invalidCredentials)
  ∧ (∀ (settings : AzureSettings) (env : String) (secret : KeyValueSecret)
       (acct ep cs : String) (tr : TransportKind),
       secret.provider = "config" → secret.connection_string = some cs →
       getTransportOptionsSecret settings env secret = .ok tr →
       connectionStringMatchStorageAccountName cs acct = .ok true →
       getStorageAccountClientSecret settings env secret acct ep =
         .ok (.fromConnectionString cs tr))
  ∧ (∀ (acct extra : String), acct ≠ "" →
       connectionStringMatchStorageAccountName ("AccountName=" ++ acct ++ extra) acct =
         .ok true)
  ∧ (∀ (settings : AzureSettings) (acct ep : String),
       settings.azure_storage_connection_string ≠ "" →
       connectionStringMatchStorageAccountName
         settings.azure_storage_connection_string acct = .ok false →
       getStorageAccountClientSettings settings acct ep =
         getStorageAccountClientSettings
           { settings with azure_storage_connection_string := "" } acct ep) := by
  refine ⟨?_, ?_, ?_, ?_⟩
  · intro settings env secret acct ep cs tr hprov hcs htr hmatch
    simp [getStorageAccountClientSecret, hprov,
      getStorageAccountClientFromConfigProvider, htr, hcs, hmatch]
  · intro settings env secret acct ep cs tr hprov hcs htr hmatch
    simp [getStorageAccountClientSecret, hprov,
      getStorageAccountClientFromConfigProvider, htr, hcs, hmatch]
  · intro acct extra hacct
    rw [connectionStringMatchStorageAccountName, if_neg hacct]
    have htl : ("AccountName=" ++ acct ++ extra).toList =
        "AccountName=".toList ++ (acct.toList ++ extra.toList) := by
      simp [String.toList, String.data_append]
    have hfind : findSubstr (("AccountName=" ++ acct ++ extra).toList)
        ("AccountName=".toList) = some 0 := by
      rw [htl, findSubstr.eq_def, if_pos (isPrefixOf_append_self _ _)]
    have hdrop : (("AccountName=" ++ acct ++ extra).toList).drop (0 + 12) =
        acct.toList ++ extra.toList := by
      rw [htl, show ((0 : Nat) + 12) = ("AccountName=".toList).length from rfl,
        List.drop_left]
    simp only [hfind, hdrop, List.take_left]
    simp
  · intro settings acct ep hne hmatch
    simp only [getStorageAccountClientSettings, hne, hmatch]
    simp

theorem claim_C8_witness :
    getStorageAccountClientSecret {} ""
      { provider := "config", connection_string := some "AccountName=other;" } "acct" "" =
      .error .invalidCredentials :=
  claim_C8.1 {} "" { provider := "config", connection_string := some "AccountName=other;" }
    "acct" "" "AccountName=other;" (.defaultTransport "" "" "") rfl rfl rfl (by decide)

/-- C8 counterexample: (1) the config-provider path accepts a connection
string whose embedded AccountName is "foobar" for the requested account
"foo" — a mismatching embedded account name that is used rather than failing
InvalidCredentials, because the check only compares a prefix; (2) the
session-configuration fallback, given connection string with embedded
account "other" and requested account "acct", silently skips the connection
string and builds an anonymous account-URL client instead of failing
InvalidCredentials. -/
theorem claim_C8_counterexample :
    (getStorageAccountClientSecret {} ""
       { provider := "config",
         connection_string := some "AccountName=foobar;AccountKey=k" } "foo" "" =
      .ok (.fromConnectionString "AccountName=foobar;AccountKey=k"
        (.defaultTransport "" "" ""))) ∧
    (getStorageAccountClientSettings
       { azure_storage_connection_string := "AccountName=other;AccountKey=k" } "acct" "" =
      .ok (.anonymous "https://acct.blob.core.windows.net" (.defaultTransport "" "" ""))) := by
  exact ⟨by decide, by decide⟩

/-- C9: resolving a service_principal secret requires a tenant id and a
client id (MissingField when absent), and one of a client secret or a
client-certificate path: with neither given, resolution fails with
InvalidConfig and no client is constructed; with a nonempty client secret a
client-secret credential client is built. -/
theorem claim_C9 :
    (∀ (settings : AzureSettings) (env : String) (secret : KeyValueSecret)
       (acct ep : String) (tr : TransportKind),
       secret.provider = "service_principal" →
       getTransportOptionsSecret settings env secret = .ok tr →
       secret.tenant_id = none →
       getStorageAccountClientSecret settings env secret acct ep =
         .error (.missingField "tenant_id"))
  ∧ (∀ (settings : AzureSettings) (env : String) (secret : KeyValueSecret)
       (acct ep t : String) (tr : TransportKind),
       secret.provider = "service_principal" →
       getTransportOptionsSecret settings env secret = .ok tr →
       secret.tenant_id = some t → secret.client_id = none →
       getStorageAccountClientSecret settings env secret acct ep =
         .error (.missingField "client_id"))
  ∧ (∀ (settings : AzureSettings) (env : String) (secret : KeyValueSecret)
       (acct ep t c : String) (tr : TransportKind),
       secret.provider = "service_principal" →
       getTransportOptionsSecret settings env secret = .ok tr →
       secret.tenant_id = some t → secret.client_id = some c →
       (secret.client_secret).getD "" = "" →
       (secret.client_certificate_path).getD "" = "" →
       getStorageAccountClientSecret settings env secret acct ep =
         .error (.invalidConfig "client_secret or client_certificate_path"))
  ∧ (∀ (settings : AzureSettings) (env : String) (secret : KeyValueSecret)
       (acct ep t c s url : String) (tr : TransportKind),
       secret.provider = "service_principal" →
       getTransportOptionsSecret settings env secret = .ok tr →
       secret.tenant_id = some t → secret.client_id = some c →
       secret.client_secret = some s → s ≠ "" →
       AccountUrl secret acct ep = .ok url →
       getStorageAccountClientSecret settings env secret acct ep =
         .ok (.withCredential url (.clientSecretCred t c s) tr)) := by
  refine ⟨?_, ?_, ?_, ?_⟩
  · intro settings env secret acct ep tr hprov htr hten
    simp [getStorageAccountClientSecret, hprov,
      getStorageAccountClientFromServicePrincipalProvider, htr, hten]
  · intro settings env secret acct ep t tr hprov htr hten hcl
    simp [getStorageAccountClientSecret, hprov,
      getStorageAccountClientFromServicePrincipalProvider, htr, hten, hcl]
  · intro settings env secret acct ep t c tr hprov htr hten hcl hsec hcert
    simp [getStorageAccountClientSecret, hprov,
      getStorageAccountClientFromServicePrincipalProvider, htr, hten, hcl,
      createClientCredential, hsec, hcert]
  · intro settings env secret acct ep t c s url tr hprov htr hten hcl hsec hs hurl
    simp [getStorageAccountClientSecret, hprov,
      getStorageAccountClientFromServicePrincipalProvider, htr, hten, hcl,
      createClientCredential, hsec, hs, hurl]

theorem claim_C9_witness :
    getStorageAccountClientSecret {} ""
      { provider := "service_principal", tenant_id := some "t1", client_id := some "c1" }
      "acct" "" = .error (.invalidConfig "client_secret or client_certificate_path") :=
  claim_C9.2.2.1 {} ""
    { provider := "service_principal", tenant_id := some "t1", client_id := some "c1" }
    "acct" "" "t1" "c1" (.defaultTransport "" "" "") rfl rfl rfl rfl rfl rfl

/-! ## Context cache -/

/-- One entry of the session's registered_state map: the account-name key,
the cached context (identified by its creation number), and the context's
is_valid flag. -/
structure CacheEntry where
  key : String
  ctx : Nat
  valid : Bool
  deriving Repr, DecidableEq

/-- The session-scoped cache: the registered_state entries plus a counter of
CreateStorageContext calls, which identifies each distinctly constructed
context. -/
structure SessionState where
  entries : List CacheEntry
  nextId : Nat
  deriving Repr, DecidableEq

def lookupEntry (s : SessionState) (k : String) : Option CacheEntry :=
  s.entries.find? (fun e => e.key == k)

def replaceEntry (k : String) (newCtx : Nat) : List CacheEntry → List CacheEntry
  | [] => []
  | e :: rest =>
      if e.key == k then ⟨k, newCtx, true⟩ :: rest
      else e :: replaceEntry k newCtx rest

/-- GetOrCreateStorageContext (azure_filesystem.cpp lines 376-411): with
caching on, a miss builds fresh and inserts; a cached-but-invalidated entry
builds fresh and replaces; a valid hit returns the cached instance.  With
caching off, a fresh context is built and nothing is stored. -/
def getOrCreateStorageContext (caching : Bool) (s : SessionState) (key : String) :
    Nat × SessionState :=
  if caching then
    match lookupEntry s key with
    | none => (s.nextId, ⟨s.entries ++ [⟨key, s.nextId, true⟩], s.nextId + 1⟩)
    | some e =>
        if e.valid then (e.ctx, s)
        else (s.nextId, ⟨replaceEntry key s.nextId s.entries, s.nextId + 1⟩)
  else (s.nextId, ⟨s.entries, s.nextId + 1⟩)

/-- The session-end event: AzureContextState::QueryEnd (lines 86-88) flips
each cached context's is_valid flag to false; the flag is never set back. -/
def queryEnd (s : SessionState) : SessionState :=
  ⟨s.entries.map (fun e => ⟨e.key, e.ctx, false⟩), s.nextId⟩

/-- Well-formedness: every cached context was created by this session's
counter. -/
def CacheWF (s : SessionState) : Prop :=
  ∀ e ∈ s.entries, e.ctx < s.nextId

theorem lookupEntry_key {s : SessionState} {k : String} {e : CacheEntry}
    (h : lookupEntry s k = some e) : e.key = k ∧ e ∈ s.entries := by
  have h1 := List.find?_some h
  have h2 := List.mem_of_find?_eq_some h
  exact ⟨by simpa using h1, h2⟩

theorem lookupEntry_append_single (s : SessionState) (k : String) (e : CacheEntry)
    (hk : e.key = k) (hnone : lookupEntry s k = none) :
    (s.entries ++ [e]).find? (fun x => x.key == k) = some e := by
  rw [List.find?_append, lookupEntry] at *
  rw [hnone]
  simp [hk]

theorem replaceEntry_find (k : String) (c : Nat) (l : List CacheEntry)
    (hfound : l.find? (fun e => e.key == k) ≠ none) :
    (replaceEntry k c l).find? (fun e => e.key == k) = some ⟨k, c, true⟩ := by
  induction l with
  | nil => simp [List.find?] at hfound
  | cons e rest ih =>
    by_cases he : e.key = k
    · rw [replaceEntry]
      simp [he]
    · rw [replaceEntry, if_neg (by simpa using he)]
      rw [List.find?] at hfound ⊢
      simp only [show (e.key == k) = false from by simpa using he] at hfound ⊢
      exact ih hfound

theorem queryEnd_find (s : SessionState) (k : String) :
    lookupEntry (queryEnd s) k =
      (lookupEntry s k).map (fun e => ⟨e.key, e.ctx, false⟩) := by
  rw [lookupEntry, lookupEntry, queryEnd]
  induction s.entries with
  | nil => simp
  | cons e rest ih =>
    by_cases he : e.key = k
    · simp [List.find?, he]
    · simp only [List.map_cons, List.find?,
        show (e.key == k) = false from by simpa using he]
      exact ih

/-- After a cache-enabled lookup, the key maps to the returned context and the
entry is valid. -/
theorem getOrCreate_lookup (s : SessionState) (key : String) :
    lookupEntry (getOrCreateStorageContext true s key).2 key =
      some ⟨key, (getOrCreateStorageContext true s key).1, true⟩ := by
  rw [getOrCreateStorageContext]
  cases hl : lookupEntry s key with
  | none =>
    simp only [if_true, hl]
    exact lookupEntry_append_single s key _ rfl hl
  | some e =>
    by_cases he : e.valid
    · simp only [if_true, hl, he, ite_true]
      obtain ⟨hk, _⟩ := lookupEntry_key hl
      obtain ⟨ek, ec, ev⟩ := e
      simp only at hk he
      subst hk
      subst he
      rfl
    · simp only [if_true, hl, he, ite_false]
      exact replaceEntry_find key s.nextId s.entries (by rw [lookupEntry] at hl; simp [hl])

theorem getOrCreate_ctx_lt (s : SessionState) (key : String) (hwf : CacheWF s) :
    (getOrCreateStorageContext true s key).1 < (getOrCreateStorageContext true s key).2.nextId := by
  rw [getOrCreateStorageContext]
  cases hl : lookupEntry s key with
  | none => simp
  | some e =>
    by_cases he : e.valid
    · simp only [if_true, he, ite_true]
      obtain ⟨_, hmem⟩ := lookupEntry_key hl
      exact hwf e hmem
    · simp [he]

theorem getOrCreate_nextId_mono (s : SessionState) (key : String) :
    s.nextId ≤ (getOrCreateStorageContext true s key).2.nextId := by
  rw [getOrCreateStorageContext]
  cases hl : lookupEntry s key with
  | none => simp
  | some e =>
    by_cases he : e.valid
    · simp [he]
    · simp [he]

/-- C6: with caching enabled, two lookups for the same account key within one
session return the identical context; a miss builds fresh and inserts, a
cached-but-invalidated entry builds fresh and re-inserts, a valid hit returns
the cached instance; the session-end event one-way flips every cached
context's valid flag to false, so the next lookup after it constructs a new
context even for an unchanged key; with caching disabled every lookup
constructs a distinct fresh context and stores nothing. -/
theorem claim_C6 :
    (∀ (s : SessionState) (key : String),
       (getOrCreateStorageContext true
          (getOrCreateStorageContext true s key).2 key).1 =
         (getOrCreateStorageContext true s key).1)
  ∧ (∀ (s : SessionState) (key : String), lookupEntry s key = none →
       getOrCreateStorageContext true s key =
         (s.nextId, ⟨s.entries ++ [⟨key, s.nextId, true⟩], s.nextId + 1⟩))
  ∧ (∀ (s : SessionState) (key : String) (e : CacheEntry),
       lookupEntry s key = some e → e.valid = false →
       getOrCreateStorageContext true s key =
         (s.nextId, ⟨replaceEntry key s.nextId s.entries, s.nextId + 1⟩))
  ∧ (∀ (s : SessionState) (key : String) (e : CacheEntry),
       lookupEntry s key = some e → e.valid = true →
       getOrCreateStorageContext true s key = (e.ctx, s))
  ∧ (∀ (s : SessionState) (e : CacheEntry), e ∈ (queryEnd s).entries → e.valid = false)
  ∧ (∀ s : SessionState, queryEnd (queryEnd s) = queryEnd s)
  ∧ (∀ (s : SessionState) (key : String), CacheWF s →
       (getOrCreateStorageContext true
          (queryEnd (getOrCreateStorageContext true s key).2) key).1 ≠
         (getOrCreateStorageContext true s key).1)
  ∧ (∀ (s : SessionState) (key : String),
       getOrCreateStorageContext false s key = (s.nextId, ⟨s.entries, s.nextId + 1⟩))
  ∧ (∀ (s : SessionState) (key : String),
       (getOrCreateStorageContext false
          (getOrCreateStorageContext false s key).2 key).1 ≠
         (getOrCreateStorageContext false s key).1) := by
  have hvalid : ∀ (s : SessionState) (key : String) (e : CacheEntry),
      lookupEntry s key = some e → e.valid = true →
      getOrCreateStorageContext true s key = (e.ctx, s) := by
    intro s key e hl he
    rw [getOrCreateStorageContext]
    simp [hl, he]
  have hmiss : ∀ (s : SessionState) (key : String), lookupEntry s key = none →
      getOrCreateStorageContext true s key =
        (s.nextId, ⟨s.entries ++ [⟨key, s.nextId, true⟩], s.nextId + 1⟩) := by
    intro s key hl
    rw [getOrCreateStorageContext]
    simp [hl]
  have hinv : ∀ (s : SessionState) (key : String) (e : CacheEntry),
      lookupEntry s key = some e → e.valid = false →
      getOrCreateStorageContext true s key =
        (s.nextId, ⟨replaceEntry key s.nextId s.entries, s.nextId + 1⟩) := by
    intro s key e hl he
    rw [getOrCreateStorageContext]
    simp [hl, he]
  refine ⟨?_, hmiss, hinv, hvalid, ?_, ?_, ?_, ?_, ?_⟩
  · intro s key
    have h := hvalid (getOrCreateStorageContext true s key).2 key
      ⟨key, (getOrCreateStorageContext true s key).1, true⟩ (getOrCreate_lookup s key) rfl
    rw [h]
  · intro s e he
    obtain ⟨e2, _, rfl⟩ := List.mem_map.mp he
    rfl
  · intro s
    simp [queryEnd, List.map_map, Function.comp]
  · intro s key hwf
    have hq : lookupEntry (queryEnd (getOrCreateStorageContext true s key).2) key =
        some ⟨key, (getOrCreateStorageContext true s key).1, false⟩ := by
      rw [queryEnd_find, getOrCreate_lookup]
      rfl
    rw [hinv (queryEnd (getOrCreateStorageContext true s key).2) key _ hq rfl]
    have hlt := getOrCreate_ctx_lt s key hwf
    simp [queryEnd]
    omega
  · intro s key
    rw [getOrCreateStorageContext]
    simp
  · intro s key
    simp [getOrCreateStorageContext]

theorem claim_C6_witness :
    (getOrCreateStorageContext true
       (queryEnd (getOrCreateStorageContext true ⟨[], 0⟩ "acct").2) "acct").1 ≠
      (getOrCreateStorageContext true (⟨[], 0⟩ : SessionState) "acct").1 :=
  claim_C6.2.2.2.2.2.2.1 ⟨[], 0⟩ "acct" (by intro e he; simp at he)

end AzureSpec
